import Mathlib

/-!
# Verification of the flint.h trace encoder (spall repository)

Shallow embedding of `src/tools/flint.h`, a single-header event-trace
encoder that writes begin/end span records either as a packed binary
stream or as JSON Trace Event text, through an optional caller-supplied
write buffer, into a single output sink.

Modelling conventions:
* Bytes are `Nat` values; a byte sequence is a `List Nat`.
* The output sink (`FILE*` opened `"wb"`) is the list of bytes written so
  far; the write cursor always sits at the end except for the single
  backwards `fseek` in `FlintQuit`, which is modelled by `List.take`.
* `double` values are carried by their 64-bit pattern (a `Nat`), since the
  encoder only ever memcpy-s them; `uint32_t` values are `Nat`s that the
  encoder stores as 4 little-endian bytes.
* `fwrite`/`fprintf` calls on the event hot path are modelled on their
  success path (the claims under verification all condition on successful
  sink writes); `FlintFlush` additionally carries explicit success flags
  for `fwrite` and `fflush` because its result value is exactly what is at
  stake there.
* Indeterminate (uninitialized) memory that the source reads is passed in
  as an explicit parameter (`junk`, `reservedByte`).
-/

namespace Flint



/-!
## Definitions (shallow embedding of flint.h)
-/

/-- UTF-8/ASCII bytes of a string literal, as natural numbers. -/
def strBytes (s : String) : List Nat := s.data.map Char.toNat

/-- `bytesLE k n` is the `k`-byte little-endian encoding of `n`
(the host order of the x86 machines the header targets); this is how the
packed structs `FlintHeader`, `FlintBeginEvent`, `FlintEndEvent` lay out
their `uint32_t`/`uint64_t`/`double` fields. -/
def bytesLE : Nat → Nat → List Nat
  | 0, _ => []
  | k + 1, n => n % 256 :: bytesLE k (n / 256)

/-- Read back a little-endian byte sequence as a natural number. -/
def readLE : List Nat → Nat
  | [] => 0
  | b :: bs => b + 256 * readLE bs

/-- The logical content of a binary event record, i.e. the tuple
(type tag, pid, tid, timestamp, name) that the packed record carries.
`whenBits` is the IEEE-754 bit pattern of the `double` timestamp. -/
inductive FlintEvent where
  | beginE (pid tid whenBits : Nat) (name : List Nat)
  | endE (pid tid whenBits : Nat)
deriving DecidableEq

/-- Packed bytes of a `FlintBeginEvent` whose name field holds `name`:
tag `FlintEventType_Begin = 2`, pid(4), tid(4), when(8), namelen(1), name
bytes (`#pragma pack(push, 1)` layout). -/
def beginBytes (pid tid whenBits : Nat) (name : List Nat) : List Nat :=
  2 :: (bytesLE 4 pid ++ bytesLE 4 tid ++ bytesLE 8 whenBits ++ name.length :: name)

/-- Packed bytes of a `FlintEndEvent`: tag `FlintEventType_End = 3`,
pid(4), tid(4), when(8). -/
def endBytes (pid tid whenBits : Nat) : List Nat :=
  3 :: (bytesLE 4 pid ++ bytesLE 4 tid ++ bytesLE 8 whenBits)

/-- Packed bytes of a `FlintHeader`: magic `0x0BADF00D` (8 bytes), version
`0` (8 bytes), timestamp_unit (8-byte double, by bit pattern), and the
one reserved byte, which `Flint__Init` never initializes — it is passed in
as the indeterminate `reservedByte`. -/
def flintHeaderBytes (timestampUnitBits reservedByte : Nat) : List Nat :=
  bytesLE 8 0x0BADF00D ++ bytesLE 8 0 ++ bytesLE 8 timestampUnitBits ++ [reservedByte]

/-- The mutable fields of a `FlintContext` together with the state of its
`FILE*`: whether a sink is attached (`file != NULL`), the `feof`/`ferror`
indicator flags of that stream, the `timestamp_unit` double (bit pattern)
and the `is_json` flag. -/
structure FlintContext where
  fileOpen : Bool
  eofFlag : Bool
  errFlag : Bool
  timestampUnit : Nat
  isJson : Bool
deriving DecidableEq

/-- The all-zero `FlintContext` produced by `memset(ctx, 0, sizeof(*ctx))`. -/
def inertContext : FlintContext :=
  { fileOpen := false, eofFlag := false, errFlag := false, timestampUnit := 0, isJson := false }

/-- `Flint__BufferFlush` on the success path: a no-op when the cursor is
0, otherwise the held bytes move to the sink and the cursor resets.
Returns (buffer, sink). -/
def Flint__BufferFlush (buf sink : List Nat) : List Nat × List Nat :=
  if buf.length = 0 then (buf, sink) else ([], sink ++ buf)

/-- `Flint__BufferWrite` on the success path: flush first if appending `p`
would exceed capacity, then either write `p` straight to the sink (when
`p` alone exceeds capacity) or append it into the buffer.
Returns (buffer, sink). -/
def Flint__BufferWrite (cap : Nat) (buf sink : List Nat) (p : List Nat) : List Nat × List Nat :=
  let s := if buf.length + p.length > cap then Flint__BufferFlush buf sink else (buf, sink)
  if p.length > cap then (s.1, s.2 ++ p) else (s.1 ++ p, s.2)

/-- `Flint__BufferFlush` with the result of the underlying `fwrite` made
explicit (`fwriteOk`); returns (ok, buffer, sink).  On `fwrite` failure
the cursor is left untouched and no bytes are credited to the sink. -/
def Flint__BufferFlushR (fwriteOk : Bool) (buf sink : List Nat) :
    Bool × List Nat × List Nat :=
  if buf.length = 0 then (true, buf, sink)
  else if fwriteOk then (true, [], sink ++ buf)
  else (false, buf, sink)

/-- `FlintFlush(ctx, wb)`, with the outcomes of the two underlying stdio
calls explicit: `fwriteOk` is whether `Flint__BufferFlush`'s `fwrite`
succeeds, `fflushOk` whether `fflush` succeeds (i.e. returns 0).  A null
`wb` argument is the same as an empty zero-capacity buffer (`wb_ = {0}`).
Returns (result, buffer, sink).  NOTE: this transcribes the source's
`if (!fflush(ctx->file)) result = false;` faithfully — `fflush` returns 0
exactly on success, so the branch is taken when `fflushOk` is true. -/
def FlintFlush (fwriteOk fflushOk : Bool) (ctx : Option FlintContext)
    (buf sink : List Nat) : Bool × List Nat × List Nat :=
  match ctx with
  | some c =>
      if c.fileOpen then
        let r := Flint__BufferFlushR fwriteOk buf sink
        ((r.1 && !fflushOk), r.2.1, r.2.2)
      else
        (false, [], sink)
  | none => (true, [], sink)

/-- `FlintBufferInit(wb) { return FlintFlush(NULL, wb); }` — with a null
context the stdio outcome flags are never consulted. -/
def FlintBufferInit (buf sink : List Nat) : Bool × List Nat × List Nat :=
  FlintFlush true true none buf sink

/-- Bytes of the JSON preamble `{"traceEvents":[\n` written by `Flint__Init`. -/
def jsonPreamble : List Nat := strBytes "\x7b\"traceEvents\":[\n"

/-- Bytes of the JSON postamble `\n]}\n` written by `FlintQuit`. -/
def jsonPostamble : List Nat := strBytes "\n]\x7d\n"

/-- `FlintQuit(ctx)` on a non-null context whose sink is `sink`: when a
file is attached and the mode is JSON, seek back two bytes and write the
postamble (the backwards seek is `List.take (sink.length - 2)` since the
cursor otherwise always sits at the end of the file); then close the file
and `memset` the context to zero.  Returns (context, sink). -/
def FlintQuit (c : FlintContext) (sink : List Nat) : FlintContext × List Nat :=
  if c.fileOpen then
    (inertContext,
      if c.isJson then sink.take (sink.length - 2) ++ jsonPostamble else sink)
  else
    (inertContext, sink)

/-- `Flint__Init(filename, timestamp_unit, is_json)` on the success path
(the file opens and the preamble write succeeds): the context comes back
with the sink attached and the preamble is the first thing in the file.
`timestampUnitBits` is the bit pattern of the `timestamp_unit` double;
`reservedByte` is the indeterminate value of the header's uninitialized
`reserved` field.  Returns (context, sink). -/
def Flint__Init (timestampUnitBits reservedByte : Nat) (isJson : Bool) :
    FlintContext × List Nat :=
  ({ fileOpen := true, eofFlag := false, errFlag := false,
     timestampUnit := timestampUnitBits, isJson := isJson },
   if isJson then jsonPreamble else flintHeaderBytes timestampUnitBits reservedByte)

/-- Decimal digits (as bytes) of a `%u`-printed unsigned integer. -/
def natDecimal (n : Nat) : List Nat := strBytes (toString n)

/-- The one line `fprintf`-ed for a JSON Begin event:
`{"name":"<nameField>","ph":"B","pid":P,"tid":T,"ts":<tsField>},\n`.
`tsField` stands for the `%f` rendering of `when * timestamp_unit`. -/
def jsonBeginLine (nameField : List Nat) (pid tid : Nat) (tsField : List Nat) : List Nat :=
  strBytes "\x7b\"name\":\"" ++ nameField ++ strBytes "\",\"ph\":\"B\",\"pid\":" ++
    natDecimal pid ++ strBytes ",\"tid\":" ++ natDecimal tid ++
    strBytes ",\"ts\":" ++ tsField ++ strBytes "\x7d,\n"

/-- The one line `fprintf`-ed for a JSON End event:
`{"ph":"E","pid":P,"tid":T,"ts":<tsField>},\n`. -/
def jsonEndLine (pid tid : Nat) (tsField : List Nat) : List Nat :=
  strBytes "\x7b\"ph\":\"E\",\"pid\":" ++ natDecimal pid ++ strBytes ",\"tid\":" ++
    natDecimal tid ++ strBytes ",\"ts\":" ++ tsField ++ strBytes "\x7d,\n"

/-- `FlintTraceBeginLenTidPid`, with sink writes on their success path.

* `fmtTs whenBits unitBits` abstracts the `%f` rendering of the double
  product `when * ctx->timestamp_unit` (IEEE-754 arithmetic and decimal
  formatting are opaque to this embedding).
* `junk` is the indeterminate content of the stack-local
  `ev.event.name.bytes` array: in the JSON branch the source formats
  `%.*s` from `ev.event.name.bytes` *without ever copying `name` into
  it* (the `memcpy` sits only in the binary branch), so the printed name
  field is `junk`, truncated at the precision `len` and at the first NUL
  byte, exactly as `%.*s` behaves.
* A null `wb` is the same as `cap = 0, buf = []` (`wb_ = {0}`).

Returns (result, buffer, sink). -/
def FlintTraceBeginLenTidPid (fmtTs : Nat → Nat → List Nat) (junk : List Nat)
    (ctx : Option FlintContext) (cap : Nat) (buf sink : List Nat)
    (whenBits : Nat) (name : Option (List Nat)) (nameLen : Int)
    (tid pid : Nat) : Bool × List Nat × List Nat :=
  match ctx, name with
  | none, _ => (false, buf, sink)
  | some _, none => (false, buf, sink)
  | some c, some nm =>
      if !c.fileOpen then (false, buf, sink)
      else if c.eofFlag then (false, buf, sink)
      else if c.errFlag then (false, buf, sink)
      else if nameLen ≤ 0 then (false, buf, sink)
      else
        let len : Nat := min nameLen.toNat 255
        if c.isJson then
          (true, buf,
            sink ++ jsonBeginLine ((junk.take len).takeWhile (· ≠ 0)) pid tid
              (fmtTs whenBits c.timestampUnit))
        else
          let st := Flint__BufferWrite cap buf sink
            (2 :: (bytesLE 4 pid ++ bytesLE 4 tid ++ bytesLE 8 whenBits ++
              len :: nm.take len))
          (true, st.1, st.2)

/-- `FlintTraceEndTidPid`, with sink writes on their success path; same
conventions as `FlintTraceBeginLenTidPid`.  Returns (result, buffer, sink). -/
def FlintTraceEndTidPid (fmtTs : Nat → Nat → List Nat)
    (ctx : Option FlintContext) (cap : Nat) (buf sink : List Nat)
    (whenBits : Nat) (tid pid : Nat) : Bool × List Nat × List Nat :=
  match ctx with
  | none => (false, buf, sink)
  | some c =>
      if !c.fileOpen then (false, buf, sink)
      else if c.eofFlag then (false, buf, sink)
      else if c.errFlag then (false, buf, sink)
      else if c.isJson then
        (true, buf, sink ++ jsonEndLine pid tid (fmtTs whenBits c.timestampUnit))
      else
        let st := Flint__BufferWrite cap buf sink
          (3 :: (bytesLE 4 pid ++ bytesLE 4 tid ++ bytesLE 8 whenBits))
        (true, st.1, st.2)

/-- Folding a sequence of `Flint__BufferWrite` calls over a (buffer, sink)
state, all sharing one capacity. -/
def writeAll (cap : Nat) (st : List Nat × List Nat) (ps : List (List Nat)) :
    List Nat × List Nat :=
  ps.foldl (fun st p => Flint__BufferWrite cap st.1 st.2 p) st

/-- Decode one binary record off the front of a byte stream, returning
the event and the remaining bytes. -/
def decodeOne (bs : List Nat) : Option (FlintEvent × List Nat) :=
  match bs with
  | 2 :: rest =>
      if rest.length < 17 then none
      else
        let len := (rest.drop 16).headD 0
        let body := rest.drop 17
        if body.length < len then none
        else
          some (.beginE (readLE (rest.take 4)) (readLE ((rest.drop 4).take 4))
                  (readLE ((rest.drop 8).take 8)) (body.take len), body.drop len)
  | 3 :: rest =>
      if rest.length < 16 then none
      else
        some (.endE (readLE (rest.take 4)) (readLE ((rest.drop 4).take 4))
                (readLE ((rest.drop 8).take 8)), rest.drop 16)
  | _ => none

/-- Decode a whole byte stream into its record sequence, with a fuel
bound on the number of records. -/
def decodeEventsFuel : Nat → List Nat → Option (List FlintEvent)
  | _, [] => some []
  | 0, _ :: _ => none
  | f + 1, b :: bs =>
      match decodeOne (b :: bs) with
      | none => none
      | some (e, rest) => (decodeEventsFuel f rest).map (e :: ·)

/-- Decode a whole byte stream into its record sequence (each record is
at least one byte, so `bs.length` is always enough fuel). -/
def decodeEvents (bs : List Nat) : Option (List FlintEvent) :=
  decodeEventsFuel bs.length bs

/-- One call of the public event API: the arguments the caller passes to
`FlintTraceBeginLenTidPid` / `FlintTraceEndTidPid` beyond the shared
context and buffer.  `nameLen` is the caller's `signed long` length
argument, `name` the bytes its pointer designates. -/
inductive TraceCall where
  | beginC (whenBits : Nat) (name : List Nat) (nameLen : Int) (tid pid : Nat)
  | endC (whenBits : Nat) (tid pid : Nat)

/-- Run one call against a fixed context, threading the `(ok, buffer,
sink)` state; `ok` stays true only while every call returns true.  The
`fmtTs`/`junk` arguments of the Begin model are irrelevant in binary mode
and passed as constants. -/
def runCall (c : FlintContext) (cap : Nat) (st : Bool × List Nat × List Nat) :
    TraceCall → Bool × List Nat × List Nat
  | .beginC w nm nl tid pid =>
      let r := FlintTraceBeginLenTidPid (fun _ _ => []) [] (some c) cap st.2.1 st.2.2
        w (some nm) nl tid pid
      (st.1 && r.1, r.2.1, r.2.2)
  | .endC w tid pid =>
      let r := FlintTraceEndTidPid (fun _ _ => []) (some c) cap st.2.1 st.2.2 w tid pid
      (st.1 && r.1, r.2.1, r.2.2)

/-- Run a call sequence from an empty buffer and an empty sink (the sink
position right after the header). -/
def runCalls (c : FlintContext) (cap : Nat) (calls : List TraceCall) :
    Bool × List Nat × List Nat :=
  calls.foldl (runCall c cap) (true, [], [])

/-- The packed record a successful binary-mode call emits. -/
def callRecord : TraceCall → List Nat
  | .beginC w nm nl tid pid => beginBytes pid tid w (nm.take (min nl.toNat 255))
  | .endC w tid pid => endBytes pid tid w

/-- The logical tuple a call stands for: Begin keeps the first
`min(name_len, 255)` bytes of the caller's name. -/
def toEvent : TraceCall → FlintEvent
  | .beginC w nm nl tid pid => .beginE pid tid w (nm.take (min nl.toNat 255))
  | .endC w tid pid => .endE pid tid w

/-- The preconditions under which the C caller may issue the call:
pid/tid are `uint32_t` values, the timestamp has a 64-bit pattern, and
for Begin the length is positive with at least `min(name_len, 255)`
readable name bytes (what the `memcpy` dereferences). -/
def ValidCall : TraceCall → Prop
  | .beginC w nm nl tid pid =>
      0 < nl ∧ min nl.toNat 255 ≤ nm.length ∧ pid < 2 ^ 32 ∧ tid < 2 ^ 32 ∧ w < 2 ^ 64
  | .endC w tid pid => pid < 2 ^ 32 ∧ tid < 2 ^ 32 ∧ w < 2 ^ 64

instance : DecidablePred ValidCall := by
  intro c
  cases c <;> simp only [ValidCall] <;> infer_instance

/-- An open binary-mode context with clear `feof`/`ferror` flags. -/
def BinaryReady (c : FlintContext) : Prop :=
  c.fileOpen = true ∧ c.eofFlag = false ∧ c.errFlag = false ∧ c.isJson = false

instance : DecidablePred BinaryReady := by
  intro c
  simp only [BinaryReady]
  infer_instance

/-- The argument combinations `FlintTraceBeginLenTidPid` rejects before
doing any I/O: null context, null name, absent sink, stream at EOF or in
error state, or non-positive `name_len`. -/
def invalidBeginArgs (ctx : Option FlintContext) (name : Option (List Nat))
    (nl : Int) : Bool :=
  match ctx, name with
  | none, _ => true
  | _, none => true
  | some c, some _ => !c.fileOpen || c.eofFlag || c.errFlag || decide (nl ≤ 0)

/-- Modelled from the spec: the JSON Begin object whose `name` field is
the first `min(name_len, 255)` bytes of the *caller-supplied* name — what
the claim says the code writes.  Compared against the source-derived
`FlintTraceBeginLenTidPid` below. -/
def jsonBeginLineSpec (name : List Nat) (nameLen : Int) (pid tid : Nat)
    (tsField : List Nat) : List Nat :=
  jsonBeginLine (name.take (min nameLen.toNat 255)) pid tid tsField

/-- The file produced by a JSON-mode `Flint__Init` immediately followed by
`FlintQuit` — the zero-event boundary case (timestamp unit 1.0). -/
def jsonZeroEventFile : List Nat :=
  (FlintQuit (Flint__Init 0x3FF0000000000000 0 true).1
    (Flint__Init 0x3FF0000000000000 0 true).2).2

/-- The spec scenario `init("t.bin", 1.0, Binary); traceBegin(ts=1.0,"A");
traceEnd(ts=2.0); quit()`, unbuffered (null write buffer = capacity 0),
on the success path.  `0x3FF0000000000000` and `0x4000000000000000` are
the IEEE-754 patterns of the doubles 1.0 and 2.0; `reservedByte` is the
indeterminate value of the header's uninitialized reserved field. -/
def scenarioFile (reservedByte : Nat) : List Nat :=
  let i := Flint__Init 0x3FF0000000000000 reservedByte false
  let b := FlintTraceBeginLenTidPid (fun _ _ => []) [] (some i.1) 0 [] i.2
    0x3FF0000000000000 (some (strBytes "A")) 1 0 0
  let e := FlintTraceEndTidPid (fun _ _ => []) (some i.1) 0 b.2.1 b.2.2
    0x4000000000000000 0 0
  (FlintQuit i.1 e.2.2).2

/-!
## Theorems
-/

theorem length_bytesLE (k n : Nat) : (bytesLE k n).length = k := by
  induction k generalizing n with
  | zero => rfl
  | succ k ih => simp [bytesLE, ih]

theorem readLE_bytesLE (k n : Nat) : readLE (bytesLE k n) = n % 256 ^ k := by
  induction k generalizing n with
  | zero => simp [bytesLE, readLE, Nat.mod_one]
  | succ k ih =>
      simp only [bytesLE, readLE, ih]
      rw [pow_succ, Nat.mul_comm (256 ^ k) 256, Nat.mod_mul]

theorem Flint__BufferFlush_stream (buf sink : List Nat) :
    (Flint__BufferFlush buf sink).2 ++ (Flint__BufferFlush buf sink).1 = sink ++ buf := by
  unfold Flint__BufferFlush
  by_cases h : buf.length = 0
  · simp [h, List.length_eq_zero.mp h]
  · simp [h]

/-- One `Flint__BufferWrite` keeps the invariant: the sink bytes followed
by the held bytes are the old stream followed by the new payload,
whichever of the three paths (append / flush-then-append / bypass) runs. -/
theorem Flint__BufferWrite_stream (cap : Nat) (buf sink p : List Nat) :
    (Flint__BufferWrite cap buf sink p).2 ++ (Flint__BufferWrite cap buf sink p).1 =
      sink ++ buf ++ p := by
  unfold Flint__BufferWrite
  by_cases h1 : buf.length + p.length > cap
  · by_cases h2 : p.length > cap
    · simp only [h1, if_true, h2]
      have := Flint__BufferFlush_stream buf sink
      unfold Flint__BufferFlush at *
      by_cases h : buf.length = 0
      · simp_all [List.length_eq_zero.mp h]
      · simp_all
    · simp only [h1, if_true, h2, if_false]
      have := Flint__BufferFlush_stream buf sink
      simp_all [← List.append_assoc]
  · have h2 : ¬ p.length > cap := by omega
    simp [h1, h2, List.append_assoc]

theorem writeAll_stream (cap : Nat) (ps : List (List Nat)) (st : List Nat × List Nat) :
    (writeAll cap st ps).2 ++ (writeAll cap st ps).1 = st.2 ++ st.1 ++ ps.flatten := by
  induction ps generalizing st with
  | nil => simp [writeAll]
  | cons p ps ih =>
      have step := Flint__BufferWrite_stream cap st.1 st.2 p
      calc (writeAll cap st (p :: ps)).2 ++ (writeAll cap st (p :: ps)).1
          = (writeAll cap (Flint__BufferWrite cap st.1 st.2 p) ps).2 ++
              (writeAll cap (Flint__BufferWrite cap st.1 st.2 p) ps).1 := by
            simp [writeAll, List.foldl_cons]
        _ = st.2 ++ st.1 ++ p ++ ps.flatten := by rw [ih]; rw [step]
        _ = st.2 ++ st.1 ++ (p :: ps).flatten := by simp [List.append_assoc]

theorem decodeOne_beginBytes (pid tid w : Nat) (name s : List Nat)
    (hpid : pid < 2 ^ 32) (htid : tid < 2 ^ 32) (hw : w < 2 ^ 64) :
    decodeOne (beginBytes pid tid w name ++ s) =
      some (.beginE pid tid w name, s) := by
  have e4p : (bytesLE 4 pid).length = 4 := length_bytesLE 4 pid
  have e4t : (bytesLE 4 tid).length = 4 := length_bytesLE 4 tid
  have e8 : (bytesLE 8 w).length = 8 := length_bytesLE 8 w
  have hshape : beginBytes pid tid w name ++ s =
      2 :: (bytesLE 4 pid ++ (bytesLE 4 tid ++ (bytesLE 8 w ++
        name.length :: (name ++ s)))) := by
    simp [beginBytes, List.append_assoc]
  rw [hshape]
  set R := bytesLE 4 pid ++ (bytesLE 4 tid ++ (bytesLE 8 w ++
    name.length :: (name ++ s))) with hR
  have hlen : R.length = 17 + name.length + s.length := by
    simp [hR, e4p, e4t, e8]; omega
  have take4 : R.take 4 = bytesLE 4 pid := List.take_left' e4p
  have drop4 : R.drop 4 = bytesLE 4 tid ++ (bytesLE 8 w ++ name.length :: (name ++ s)) :=
    List.drop_left' e4p
  have take44 : (R.drop 4).take 4 = bytesLE 4 tid := by
    rw [drop4]; exact List.take_left' e4t
  have drop8 : R.drop 8 = bytesLE 8 w ++ name.length :: (name ++ s) := by
    have : (R.drop 4).drop 4 = R.drop 8 := by
      rw [List.drop_drop]
    rw [← this, drop4]
    exact List.drop_left' e4t
  have take88 : (R.drop 8).take 8 = bytesLE 8 w := by
    rw [drop8]; exact List.take_left' e8
  have drop16 : R.drop 16 = name.length :: (name ++ s) := by
    have : (R.drop 8).drop 8 = R.drop 16 := by rw [List.drop_drop]
    rw [← this, drop8]
    exact List.drop_left' e8
  have drop17 : R.drop 17 = name ++ s := by
    have : (R.drop 16).drop 1 = R.drop 17 := by rw [List.drop_drop]
    rw [← this, drop16]
    rfl
  have h17 : ¬ R.length < 17 := by omega
  show decodeOne (2 :: R) = _
  rw [show decodeOne (2 :: R) =
      (if R.length < 17 then none
       else
         if (R.drop 17).length < (R.drop 16).headD 0 then none
         else
           some (.beginE (readLE (R.take 4)) (readLE ((R.drop 4).take 4))
                   (readLE ((R.drop 8).take 8)) ((R.drop 17).take ((R.drop 16).headD 0)),
             (R.drop 17).drop ((R.drop 16).headD 0))) from rfl]
  rw [if_neg h17, drop16, drop17]
  simp only [List.headD_cons, List.length_append]
  rw [if_neg (by omega)]
  rw [take4, take44, take88, List.take_left, List.drop_left]
  rw [readLE_bytesLE, readLE_bytesLE, readLE_bytesLE,
    Nat.mod_eq_of_lt (lt_of_lt_of_le hpid (by norm_num)),
    Nat.mod_eq_of_lt (lt_of_lt_of_le htid (by norm_num)),
    Nat.mod_eq_of_lt (lt_of_lt_of_le hw (by norm_num))]

theorem decodeOne_endBytes (pid tid w : Nat) (s : List Nat)
    (hpid : pid < 2 ^ 32) (htid : tid < 2 ^ 32) (hw : w < 2 ^ 64) :
    decodeOne (endBytes pid tid w ++ s) = some (.endE pid tid w, s) := by
  have e4p : (bytesLE 4 pid).length = 4 := length_bytesLE 4 pid
  have e4t : (bytesLE 4 tid).length = 4 := length_bytesLE 4 tid
  have e8 : (bytesLE 8 w).length = 8 := length_bytesLE 8 w
  have hshape : endBytes pid tid w ++ s =
      3 :: (bytesLE 4 pid ++ (bytesLE 4 tid ++ (bytesLE 8 w ++ s))) := by
    simp [endBytes, List.append_assoc]
  rw [hshape]
  set R := bytesLE 4 pid ++ (bytesLE 4 tid ++ (bytesLE 8 w ++ s)) with hR
  have hlen : R.length = 16 + s.length := by
    simp [hR, e4p, e4t, e8]; omega
  have take4 : R.take 4 = bytesLE 4 pid := List.take_left' e4p
  have drop4 : R.drop 4 = bytesLE 4 tid ++ (bytesLE 8 w ++ s) := List.drop_left' e4p
  have take44 : (R.drop 4).take 4 = bytesLE 4 tid := by
    rw [drop4]; exact List.take_left' e4t
  have drop8 : R.drop 8 = bytesLE 8 w ++ s := by
    have : (R.drop 4).drop 4 = R.drop 8 := by rw [List.drop_drop]
    rw [← this, drop4]
    exact List.drop_left' e4t
  have take88 : (R.drop 8).take 8 = bytesLE 8 w := by
    rw [drop8]; exact List.take_left' e8
  have drop16 : R.drop 16 = s := by
    have : (R.drop 8).drop 8 = R.drop 16 := by rw [List.drop_drop]
    rw [← this, drop8]
    exact List.drop_left' e8
  show decodeOne (3 :: R) = _
  rw [show decodeOne (3 :: R) =
      (if R.length < 16 then none
       else
         some (.endE (readLE (R.take 4)) (readLE ((R.drop 4).take 4))
                 (readLE ((R.drop 8).take 8)), R.drop 16)) from rfl]
  rw [if_neg (by omega), take4, take44, take88, drop16]
  rw [readLE_bytesLE, readLE_bytesLE, readLE_bytesLE,
    Nat.mod_eq_of_lt (lt_of_lt_of_le hpid (by norm_num)),
    Nat.mod_eq_of_lt (lt_of_lt_of_le htid (by norm_num)),
    Nat.mod_eq_of_lt (lt_of_lt_of_le hw (by norm_num))]

theorem runCall_valid (c : FlintContext) (hc : BinaryReady c) (cap : Nat)
    (ok : Bool) (buf sink : List Nat) (call : TraceCall) (hv : ValidCall call) :
    runCall c cap (ok, buf, sink) call =
      (ok, Flint__BufferWrite cap buf sink (callRecord call)) := by
  obtain ⟨hopen, heof, herr, hjson⟩ := hc
  cases call with
  | beginC w nm nl tid pid =>
      obtain ⟨hnl, hlen, -⟩ := hv
      have hnotle : ¬ nl ≤ 0 := by omega
      have htrunc : (nm.take (min nl.toNat 255)).length = min nl.toNat 255 := by
        simp [List.length_take]
        omega
      simp only [runCall, FlintTraceBeginLenTidPid, hopen, heof, herr, hjson,
        Bool.not_true, Bool.false_eq_true, if_false, if_neg hnotle, Bool.and_true]
      rw [callRecord, beginBytes, htrunc]
  | endC w tid pid =>
      simp only [runCall, FlintTraceEndTidPid, hopen, heof, herr, hjson,
        Bool.not_true, Bool.false_eq_true, if_false, Bool.and_true]
      rw [callRecord, endBytes]

theorem runCalls_eq_writeAll (c : FlintContext) (hc : BinaryReady c) (cap : Nat)
    (calls : List TraceCall) (hv : ∀ call ∈ calls, ValidCall call)
    (buf sink : List Nat) :
    calls.foldl (runCall c cap) (true, buf, sink) =
      (true, writeAll cap (buf, sink) (calls.map callRecord)) := by
  induction calls generalizing buf sink with
  | nil => simp [writeAll]
  | cons call calls ih =>
      have h1 : ValidCall call := hv call (by simp)
      have h2 : ∀ x ∈ calls, ValidCall x := fun x hx => hv x (by simp [hx])
      rw [List.foldl_cons, runCall_valid c hc cap true buf sink call h1]
      rw [ih h2]
      simp [writeAll, Flint__BufferWrite]

/-- Each record starts with its tag byte, so a stream of `n` records is
at least `n` bytes long. -/
theorem length_flatten_callRecord (calls : List TraceCall) :
    calls.length ≤ (calls.map callRecord).flatten.length := by
  induction calls with
  | nil => simp
  | cons call calls ih =>
      have : 1 ≤ (callRecord call).length := by
        cases call <;> simp [callRecord, beginBytes, endBytes]
      simp only [List.map_cons, List.flatten_cons, List.length_append, List.length_cons]
      omega

theorem decodeEventsFuel_flatten (f : Nat) (calls : List TraceCall)
    (hv : ∀ call ∈ calls, ValidCall call) (hf : calls.length ≤ f) :
    decodeEventsFuel f (calls.map callRecord).flatten = some (calls.map toEvent) := by
  induction calls generalizing f with
  | nil => cases f <;> simp [decodeEventsFuel]
  | cons call calls ih =>
      have hf' : calls.length + 1 ≤ f := by simpa using hf
      obtain ⟨f, rfl⟩ : ∃ g, f = g + 1 := ⟨f - 1, by omega⟩
      have h1 : ValidCall call := hv call (by simp)
      have h2 : ∀ x ∈ calls, ValidCall x := fun x hx => hv x (by simp [hx])
      have hone : decodeOne (callRecord call ++ (calls.map callRecord).flatten) =
          some (toEvent call, (calls.map callRecord).flatten) := by
        cases call with
        | beginC w nm nl tid pid =>
            obtain ⟨-, -, hpid, htid, hw⟩ := h1
            exact decodeOne_beginBytes pid tid w _ _ hpid htid hw
        | endC w tid pid =>
            obtain ⟨hpid, htid, hw⟩ := h1
            exact decodeOne_endBytes pid tid w _ hpid htid hw
      have hcons : ∃ b bs, callRecord call ++ (calls.map callRecord).flatten = b :: bs := by
        cases call <;> exact ⟨_, _, rfl⟩
      obtain ⟨b, bs, hbs⟩ := hcons
      simp only [List.map_cons, List.flatten_cons, hbs, decodeEventsFuel]
      rw [← hbs, hone]
      show Option.map (toEvent call :: ·)
        (decodeEventsFuel f (calls.map callRecord).flatten) = _
      rw [ih f h2 (by omega)]
      rfl

theorem decodeEvents_flatten (calls : List TraceCall)
    (hv : ∀ call ∈ calls, ValidCall call) :
    decodeEvents (calls.map callRecord).flatten = some (calls.map toEvent) :=
  decodeEventsFuel_flatten _ calls hv (length_flatten_callRecord calls)

/-- `Flint__BufferFlush` always leaves the cursor at 0 and the held bytes
appended to the sink (a unified form of both its branches). -/
theorem Flint__BufferFlush_eq (buf sink : List Nat) :
    Flint__BufferFlush buf sink = ([], sink ++ buf) := by
  unfold Flint__BufferFlush
  by_cases h : buf.length = 0
  · simp [h, List.length_eq_zero.mp h]
  · simp [h]

/-- C1: for every sequence of Begin/End calls on a binary-mode context
that all return true, the bytes written to the sink after the header
(here: the flushed stream the calls produced) decode back to exactly the
same sequence of (type tag, pid, tid, timestamp, name) tuples in call
order, each Begin's name being the first `min(name_len, 255)` bytes of
the caller's name, each record laid out as
tag(1)+pid(4)+tid(4)+timestamp(8), with namelen(1)+name appended for
Begin only. -/
theorem binary_begin_end_roundtrip (c : FlintContext) (cap : Nat)
    (calls : List TraceCall) (hc : BinaryReady c)
    (hv : ∀ call ∈ calls, ValidCall call) :
    (runCalls c cap calls).1 = true ∧
    decodeEvents (Flint__BufferFlush (runCalls c cap calls).2.1
      (runCalls c cap calls).2.2).2 = some (calls.map toEvent) := by
  unfold runCalls
  rw [runCalls_eq_writeAll c hc cap calls hv [] []]
  refine ⟨rfl, ?_⟩
  rw [Flint__BufferFlush_eq]
  have hs := writeAll_stream cap (calls.map callRecord) ([], [])
  simp only [List.nil_append] at hs
  rw [show ((writeAll cap ([], []) (calls.map callRecord)).2 ++
      (writeAll cap ([], []) (calls.map callRecord)).1) =
      (calls.map callRecord).flatten from hs]
  exact decodeEvents_flatten calls hv

/-- Witness for C1 at a concrete context, capacity 4 (so that the second
record straddles a flush boundary) and two concrete calls. -/
theorem binary_begin_end_roundtrip_witness :
    BinaryReady ⟨true, false, false, 0, false⟩ ∧
    (∀ call ∈ [TraceCall.beginC 7 [65, 66] 2 1 2, TraceCall.endC 9 3 4],
      ValidCall call) ∧
    ((runCalls ⟨true, false, false, 0, false⟩ 4
        [TraceCall.beginC 7 [65, 66] 2 1 2, TraceCall.endC 9 3 4]).1 = true ∧
      decodeEvents (Flint__BufferFlush
        (runCalls ⟨true, false, false, 0, false⟩ 4
          [TraceCall.beginC 7 [65, 66] 2 1 2, TraceCall.endC 9 3 4]).2.1
        (runCalls ⟨true, false, false, 0, false⟩ 4
          [TraceCall.beginC 7 [65, 66] 2 1 2, TraceCall.endC 9 3 4]).2.2).2 =
        some ([TraceCall.beginC 7 [65, 66] 2 1 2,
          TraceCall.endC 9 3 4].map toEvent)) :=
  ⟨by decide, by decide,
    binary_begin_end_roundtrip ⟨true, false, false, 0, false⟩ 4
      [TraceCall.beginC 7 [65, 66] 2 1 2, TraceCall.endC 9 3 4]
      (by decide) (by decide)⟩

/-- C2 (code bug): with an open sink and every stdio call succeeding
(`fwriteOk = true`, `fflushOk = true`), `FlintFlush` returns **false**
even though the buffered byte reached the sink — and it returns **true**
when `fflush` fails.  The source's `if (!fflush(ctx->file)) result =
false;` is inverted: `fflush` returns 0 precisely on success. -/
theorem flush_result_inverted :
    (FlintFlush true true (some ⟨true, false, false, 0, false⟩) [7] []).1 = false ∧
    (FlintFlush true true (some ⟨true, false, false, 0, false⟩) [7] []).2.2 = [7] ∧
    (FlintFlush true false (some ⟨true, false, false, 0, false⟩) [7] []).1 = true := by
  decide

/-- C3 (code bug): with zero events, JSON-mode Quit's backwards 2-byte
seek lands on the `[` of the preamble and overwrites it, so the file is
`{"traceEvents":\n]}\n` — it contains no `[` (byte 91) at all and is not
the well-formed `{"traceEvents":[\n\n]}\n` the spec expects. -/
theorem json_quit_zero_events_bug :
    jsonZeroEventFile = strBytes "\x7b\"traceEvents\":\n]\x7d\n" ∧
    (91 : Nat) ∉ jsonZeroEventFile ∧
    jsonZeroEventFile ≠ strBytes "\x7b\"traceEvents\":[\n\n]\x7d\n" := by
  decide

/-- C4 (code bug): a successful JSON-mode Begin writes a
`{"name":...}` object whose name field comes from the *uninitialized*
`ev.event.name.bytes` stack array (`junk`), not from the caller's name —
the `memcpy` of `name` sits only in the binary branch.  At
`junk = "B"`, `name = "A"`, the emitted line carries `"B"` and differs
from the spec-modelled line built from the caller's name. -/
theorem json_begin_prints_junk_not_name :
    (FlintTraceBeginLenTidPid (fun _ _ => strBytes "1.000000") (strBytes "B")
        (some ⟨true, false, false, 0x3FF0000000000000, true⟩) 0 [] []
        0x3FF0000000000000 (some (strBytes "A")) 1 0 0).2.2 =
      jsonBeginLine (strBytes "B") 0 0 (strBytes "1.000000") ∧
    (FlintTraceBeginLenTidPid (fun _ _ => strBytes "1.000000") (strBytes "B")
        (some ⟨true, false, false, 0x3FF0000000000000, true⟩) 0 [] []
        0x3FF0000000000000 (some (strBytes "A")) 1 0 0).2.2 ≠
      jsonBeginLineSpec (strBytes "A") 1 0 0 (strBytes "1.000000") := by
  decide

/-- C5 counterexample: the scenario file is 61 bytes, not the claimed 56
(the packed header is 25 bytes, not 21; the Begin record with a one-byte
name is 19 bytes, not 18). -/
theorem scenario_not_56_bytes :
    (scenarioFile 0).length = 61 ∧ (scenarioFile 0).length ≠ 56 := by
  decide

/-- C5 as amended: the scenario produces header(25) + Begin record(19:
tag+pid+tid+ts+len+"A") + End record(17) = 61 bytes, with the magic
sentinel `0x0BADF00D` at file offset 0 — for every value of the header's
uninitialized reserved byte. -/
theorem scenario_file_layout (reservedByte : Nat) :
    scenarioFile reservedByte =
      flintHeaderBytes 0x3FF0000000000000 reservedByte ++
        (beginBytes 0 0 0x3FF0000000000000 (strBytes "A") ++
          endBytes 0 0 0x4000000000000000) ∧
    (flintHeaderBytes 0x3FF0000000000000 reservedByte).length = 25 ∧
    (beginBytes 0 0 0x3FF0000000000000 (strBytes "A")).length = 19 ∧
    (endBytes 0 0 0x4000000000000000).length = 17 ∧
    (scenarioFile reservedByte).length = 61 ∧
    (scenarioFile reservedByte).take 8 = bytesLE 8 0x0BADF00D := by
  have h : scenarioFile reservedByte =
      flintHeaderBytes 0x3FF0000000000000 reservedByte ++
        (beginBytes 0 0 0x3FF0000000000000 (strBytes "A") ++
          endBytes 0 0 0x4000000000000000) := by
    simp [scenarioFile, Flint__Init, FlintTraceBeginLenTidPid, FlintTraceEndTidPid,
      FlintQuit, Flint__BufferWrite, Flint__BufferFlush, beginBytes, endBytes,
      strBytes, List.append_assoc]
  have hh : (flintHeaderBytes 0x3FF0000000000000 reservedByte).length = 25 := by
    simp [flintHeaderBytes, length_bytesLE]
  refine ⟨h, hh, by decide, by decide, ?_, ?_⟩
  · rw [h]
    simp only [List.length_append, hh]
    decide
  · rw [h]
    unfold flintHeaderBytes
    rw [List.append_assoc, List.append_assoc, List.append_assoc]
    exact List.take_left' (length_bytesLE 8 0x0BADF00D)

/-- C6: for every capacity, initial sink content and payload sequence,
writing the payloads through the buffer and flushing at the end delivers
to the sink exactly the concatenation of the payloads in call order,
wherever the flush boundaries fall. -/
theorem buffer_write_concatenation (cap : Nat) (sink0 : List Nat)
    (ps : List (List Nat)) :
    (Flint__BufferFlush (writeAll cap ([], sink0) ps).1
      (writeAll cap ([], sink0) ps).2).2 = sink0 ++ ps.flatten := by
  rw [Flint__BufferFlush_eq]
  have hs := writeAll_stream cap ps ([], sink0)
  simpa using hs

/-- C7: a binary-mode Begin with `name_len > 255` succeeds and records a
length byte of exactly 255 followed by exactly the first 255 name bytes. -/
theorem begin_truncates_long_name (fmtTs : Nat → Nat → List Nat)
    (junk : List Nat) (c : FlintContext) (cap : Nat) (buf sink : List Nat)
    (w : Nat) (nm : List Nat) (nl : Int) (tid pid : Nat)
    (hc : BinaryReady c) (hlong : (255 : Int) < nl) (hnm : 255 ≤ nm.length) :
    FlintTraceBeginLenTidPid fmtTs junk (some c) cap buf sink w (some nm) nl tid pid =
      (true, Flint__BufferWrite cap buf sink (2 :: (bytesLE 4 pid ++ bytesLE 4 tid ++
        bytesLE 8 w ++ 255 :: nm.take 255))) ∧
    (nm.take 255).length = 255 := by
  obtain ⟨hopen, heof, herr, hjson⟩ := hc
  have hmin : min nl.toNat 255 = 255 := by omega
  constructor
  · simp only [FlintTraceBeginLenTidPid, hopen, heof, herr, hjson, Bool.not_true,
      Bool.false_eq_true, if_false, if_neg (show ¬ nl ≤ 0 by omega), hmin]
  · simp [List.length_take]
    omega

/-- Witness for C7: a 1000-byte name `AAA…A` is truncated to 255 bytes,
not rejected. -/
theorem begin_truncates_long_name_witness :
    BinaryReady ⟨true, false, false, 0, false⟩ ∧ (255 : Int) < 1000 ∧
    255 ≤ (List.replicate 1000 65).length ∧
    (FlintTraceBeginLenTidPid (fun _ _ => []) [] (some ⟨true, false, false, 0, false⟩)
        0 [] [] 5 (some (List.replicate 1000 65)) 1000 2 3 =
      (true, Flint__BufferWrite 0 [] [] (2 :: (bytesLE 4 3 ++ bytesLE 4 2 ++
        bytesLE 8 5 ++ 255 :: (List.replicate 1000 65).take 255))) ∧
      ((List.replicate 1000 65).take 255).length = 255) :=
  ⟨by decide, by decide, by rw [List.length_replicate]; omega,
    begin_truncates_long_name (fun _ _ => []) [] ⟨true, false, false, 0, false⟩
      0 [] [] 5 (List.replicate 1000 65) 1000 2 3
      (by decide) (by decide) (by rw [List.length_replicate]; omega)⟩

/-- C8: every Begin call with a null context, null name, absent sink,
stream at EOF or in error state, or `name_len ≤ 0` returns false and has
no side effect — nothing reaches the sink, the buffer cursor is
unchanged. -/
theorem begin_invalid_no_side_effect (fmtTs : Nat → Nat → List Nat)
    (junk : List Nat) (ctx : Option FlintContext) (cap : Nat)
    (buf sink : List Nat) (w : Nat) (name : Option (List Nat)) (nl : Int)
    (tid pid : Nat) (h : invalidBeginArgs ctx name nl = true) :
    FlintTraceBeginLenTidPid fmtTs junk ctx cap buf sink w name nl tid pid =
      (false, buf, sink) := by
  match ctx, name with
  | none, _ => rfl
  | some c, none => rfl
  | some c, some nm =>
      simp only [invalidBeginArgs, Bool.or_eq_true, Bool.not_eq_true',
        decide_eq_true_eq] at h
      by_cases hf : c.fileOpen <;> by_cases he : c.eofFlag <;>
        by_cases hr : c.errFlag <;> by_cases hn : nl ≤ 0 <;>
        simp_all [FlintTraceBeginLenTidPid]

/-- Witness for C8 at a null context. -/
theorem begin_invalid_no_side_effect_witness :
    invalidBeginArgs none (some [65]) 5 = true ∧
    FlintTraceBeginLenTidPid (fun _ _ => []) [] none 8 [1] [2] 5 (some [65]) 5 0 0 =
      (false, [1], [2]) :=
  ⟨rfl, begin_invalid_no_side_effect (fun _ _ => []) [] none 8 [1] [2] 5
    (some [65]) 5 0 0 rfl⟩

/-- C9: Quit is idempotent — the first Quit resets the context to the
inert all-zero state, a second Quit on the result changes nothing, and
Quit on an inert context performs no sink operation at all. -/
theorem quit_idempotent (c : FlintContext) (sink : List Nat) :
    FlintQuit (FlintQuit c sink).1 (FlintQuit c sink).2 = FlintQuit c sink ∧
    (FlintQuit c sink).1 = inertContext ∧
    FlintQuit inertContext sink = (inertContext, sink) := by
  unfold FlintQuit inertContext
  by_cases h : c.fileOpen <;> simp [h]

/-- C10: `FlintFlush` with a null context, or with a context whose sink
is absent, writes nothing to any sink yet still resets the buffer cursor
to 0, discarding the held bytes; it returns true exactly in the
null-context case, so `FlintBufferInit` always succeeds. -/
theorem flush_no_sink (a b : Bool) (buf sink : List Nat) (c : FlintContext)
    (h : c.fileOpen = false) :
    FlintFlush a b none buf sink = (true, [], sink) ∧
    FlintFlush a b (some c) buf sink = (false, [], sink) ∧
    FlintBufferInit buf sink = (true, [], sink) := by
  refine ⟨rfl, ?_, rfl⟩
  simp [FlintFlush, h]

/-- Witness for C10 on a closed context and a non-empty buffer. -/
theorem flush_no_sink_witness :
    inertContext.fileOpen = false ∧
    (FlintFlush true true none [5, 6] [9] = (true, [], [9]) ∧
      FlintFlush true true (some inertContext) [5, 6] [9] = (false, [], [9]) ∧
      FlintBufferInit [5, 6] [9] = (true, [], [9])) :=
  ⟨rfl, flush_no_sink true true [5, 6] [9] inertContext rfl⟩

end Flint
